import Mathlib

/-!
Shallow embedding of the `arara` sensor-broadcast listener
(`src/main.rs`, `src/aranet4.rs`, `src/mitherm.rs`).

Rust `f64` values are modelled exactly as dyadic rationals: a pair of a
natural significand `m` and an integer exponent `e` denoting `m * 2 ^ e`.
Every float produced by this program is obtained from non-negative
integers by multiplication with a rounded decimal constant, so
non-negative significands suffice.  Rounding is IEEE-754 round-to-nearest,
ties-to-even, at 53 significant bits; all values arising here are in the
normal range, far from overflow and subnormals.
-/

/-- Number of binary digits of `n` (`0` for `n = 0`), i.e. `⌊log2 n⌋ + 1`
for positive `n`.  Structural recursion on a fuel argument so that the
kernel can evaluate it; fuel `128` covers every natural below `2 ^ 128`,
far beyond any significand this program produces. -/
def nbitsAux : ℕ → ℕ → ℕ
  | 0, _ => 0
  | f + 1, n => if n = 0 then 0 else nbitsAux f (n / 2) + 1

def nbits (n : ℕ) : ℕ := nbitsAux 128 n

/-- Round `num / den` to the nearest integer, ties to even. -/
def rdivNE (num den : ℕ) : ℕ :=
  let q := num / den
  let r := num % den
  if 2 * r < den then q
  else if den < 2 * r then q + 1
  else if q % 2 = 0 then q else q + 1

/-- An IEEE-754 double, as the exact dyadic rational `m * 2 ^ e`
(non-negative values only, which is all this program produces). -/
structure F64 where
  m : ℕ
  e : ℤ
deriving DecidableEq, Repr

/-- `2 ^ t ≤ a / b` for positive `a`, `b`. -/
def geTwoPow (a b : ℕ) (t : ℤ) : Bool :=
  if 0 ≤ t then b * 2 ^ t.toNat ≤ a else b ≤ a * 2 ^ (-t).toNat

/-- `⌊log2 (a / b)⌋` for positive `a`, `b`. -/
def ratExp (a b : ℕ) : ℤ :=
  let s0 : ℤ := (nbits a : ℤ) - (nbits b : ℤ)
  if geTwoPow a b s0 then s0 else s0 - 1

/-- Round the positive rational `a / b` to the nearest double:
scale into `[2^52, 2^53)` and round to nearest, ties to even. -/
def roundPosRat (a b : ℕ) : F64 :=
  let e := ratExp a b - 52
  if 0 ≤ e then ⟨rdivNE a (b * 2 ^ e.toNat), e⟩
  else ⟨rdivNE (a * 2 ^ (-e).toNat) b, e⟩

/-- Nearest double to the non-negative rational `a / b` (with `b ≠ 0`). -/
def roundF64 (a b : ℕ) : F64 :=
  if a = 0 then ⟨0, 0⟩ else roundPosRat a b

/-- Round the exact dyadic `p * 2 ^ ee` to 53 significant bits
(the rounding step of a double multiplication). -/
def roundDyadic (p : ℕ) (ee : ℤ) : F64 :=
  let L := nbits p
  if L ≤ 53 then ⟨p, ee⟩
  else ⟨rdivNE p (2 ^ (L - 53)), ee + (L - 53 : ℕ)⟩

/-- Exact double multiplication with IEEE rounding of the product. -/
def F64.mul (x y : F64) : F64 :=
  if x.m * y.m = 0 then ⟨0, 0⟩ else roundDyadic (x.m * y.m) (x.e + y.e)

/-- The exact rational value of a modelled double. -/
def F64.toRat (x : F64) : ℚ :=
  if 0 ≤ x.e then (x.m : ℚ) * 2 ^ x.e.toNat else (x.m : ℚ) / 2 ^ (-x.e).toNat

/-- Value comparison of modelled doubles. -/
def F64.le (x y : F64) : Bool :=
  if y.e ≤ x.e then x.m * 2 ^ (x.e - y.e).toNat ≤ y.m
  else x.m ≤ y.m * 2 ^ (y.e - x.e).toNat

/-- The double nearest the literal `0.05` (Rust `0.05_f64`). -/
def c005 : F64 := roundF64 5 100

/-- The double nearest the literal `0.1` (Rust `0.1_f64`). -/
def c01 : F64 := roundF64 1 10

/-- The double nearest the literal `0.01` (Rust `0.01_f64`). -/
def c001 : F64 := roundF64 1 100

/-!  Byte-slice reads, modelling `scroll`'s `gread` / `gread_with` on a
`&[u8]`: a read past the end of the slice fails with a bounds error
carrying the requested end offset and the slice length (`Error::TooBig
{ size, len }`); an in-bounds read returns the value and advances the
offset.  Bytes are naturals (callers store values `< 256`). -/

structure DecodeErr where
  size : ℕ
  len : ℕ
deriving DecidableEq, Repr

/-- `gread::<u8>`: one byte at `off`. -/
def gread8 (l : List ℕ) (off : ℕ) : Except DecodeErr (ℕ × ℕ) :=
  if off + 1 ≤ l.length then .ok (l.getD off 0, off + 1)
  else .error ⟨off + 1, l.length⟩

/-- `gread_with::<u16>(…, Endian::Little)`: two bytes at `off`. -/
def gread16le (l : List ℕ) (off : ℕ) : Except DecodeErr (ℕ × ℕ) :=
  if off + 2 ≤ l.length then .ok (l.getD off 0 + 256 * l.getD (off + 1) 0, off + 2)
  else .error ⟨off + 2, l.length⟩

namespace aranet4

def MANUFACTURER_ID : ℕ := 0x0702

/-- `aranet4::Announcement` (src/aranet4.rs). -/
structure Announcement where
  co2 : Option ℕ
  temperature : Option F64
  pressure : Option F64
  humidity : ℕ
  battery : ℕ
  status : ℕ
deriving DecidableEq, Repr

/-- `aranet4::Announcement::try_from_ctx` (src/aranet4.rs): reads, in
order and starting at offset 8, three little-endian `u16`s (co2,
temperature, pressure — each with its sentinel bit mapped to `None`)
and three `u8`s (humidity, battery, status), failing at the first read
that runs past the end of the payload. -/
def try_from_ctx (l : List ℕ) : Except DecodeErr (Announcement × ℕ) :=
  match gread16le l 8 with
  | .error er => .error er
  | .ok (c, o1) =>
    match gread16le l o1 with
    | .error er => .error er
    | .ok (t, o2) =>
      match gread16le l o2 with
      | .error er => .error er
      | .ok (p, o3) =>
        match gread8 l o3 with
        | .error er => .error er
        | .ok (h, o4) =>
          match gread8 l o4 with
          | .error er => .error er
          | .ok (b, o5) =>
            match gread8 l o5 with
            | .error er => .error er
            | .ok (st, o6) =>
              .ok
                ({ co2 := if c >>> 15 ≠ 1 then some c else none
                   temperature :=
                     if (t >>> 14) &&& 1 ≠ 1 then some (F64.mul ⟨t, 0⟩ c005) else none
                   pressure := if p >>> 15 ≠ 1 then some (F64.mul ⟨p, 0⟩ c01) else none
                   humidity := h
                   battery := b
                   status := st }, o6)

end aranet4

namespace mitherm

/-- `mitherm::Announcement` (src/mitherm.rs). -/
structure Announcement where
  temperature : F64
  humidity : F64
  battery_mv : ℕ
  battery_percent : ℕ
deriving DecidableEq, Repr

/-- `mitherm::Announcement::try_from_ctx` (src/mitherm.rs): reads, in
order and starting at offset 6, three little-endian `u16`s (temperature
and humidity scaled by `0.01`, battery millivolts raw) and one `u8`
(battery percent), failing at the first read past the end. -/
def try_from_ctx (l : List ℕ) : Except DecodeErr (Announcement × ℕ) :=
  match gread16le l 6 with
  | .error er => .error er
  | .ok (t, o1) =>
    match gread16le l o1 with
    | .error er => .error er
    | .ok (h, o2) =>
      match gread16le l o2 with
      | .error er => .error er
      | .ok (mv, o3) =>
        match gread8 l o3 with
        | .error er => .error er
        | .ok (bp, o4) =>
          .ok
            ({ temperature := F64.mul ⟨t, 0⟩ c001
               humidity := F64.mul ⟨h, 0⟩ c001
               battery_mv := mv
               battery_percent := bp }, o4)

end mitherm

/-!  Embedding of `src/main.rs`: the state store, event processing and
the periodic output path.  Device identifiers are opaque tokens,
modelled as naturals; timestamps (`DateTime<Utc>`) and durations are
modelled as integers on an abstract clock.  `HashMap`s keyed by device
are modelled as association lists whose operations mirror map
semantics (`ainsert` overwrites the key's binding). -/

def alookup {α : Type} : List (ℕ × α) → ℕ → Option α
  | [], _ => none
  | (k, v) :: t, k' => if k' = k then some v else alookup t k'

def ainsert {α : Type} (l : List (ℕ × α)) (k : ℕ) (v : α) : List (ℕ × α) :=
  (k, v) :: l.filter (fun p => p.1 != k)

/-- `bluez_async::DeviceInfo`, reduced to the one field the program
reads (`info.name`). -/
structure DeviceInfo where
  name : Option String
deriving DecidableEq, Repr

/-- `State` (src/main.rs): per-device Aranet4 store and the device-info
side table. -/
structure State where
  aranet4 : List (ℕ × (ℤ × aranet4.Announcement))
  devices : List (ℕ × DeviceInfo)
deriving DecidableEq, Repr

inductive DeviceEvent
  | manufacturerData (pairs : List (ℕ × List ℕ))
  | serviceData (pairs : List (ℕ × List ℕ))
  | otherDevice
deriving DecidableEq, Repr

/-- `bluez_async::BluetoothEvent`, reduced to the shapes `process_event`
distinguishes.  A frame event carries one device and a keyed mapping of
vendor-key/payload pairs; the mapping's (unspecified) iteration order is
represented by the list order. -/
inductive BluetoothEvent
  | adapterPowered (aid : ℕ) (powered : Bool)
  | adapterDiscovering (aid : ℕ) (discovering : Bool)
  | adapterOther
  | device (id : ℕ) (ev : DeviceEvent)
  | otherEvent
deriving DecidableEq, Repr

/-- Diagnostic emissions (`debug!` / `warn!` calls) of `process_event`,
recorded so that "this pair was observed/dispatched" is visible in the
model. -/
inductive Obs
  | adapterPowered (aid : ℕ) (p : Bool)
  | adapterDiscovering (aid : ℕ) (d : Bool)
  | aranet4Ann (dev : ℕ) (ann : aranet4.Announcement)
  | gettingInfo (dev : ℕ)
  | infoFailed (dev : ℕ)
  | appleData (dev : ℕ) (value : List ℕ)
  | mfrData (dev : ℕ) (key : ℕ) (value : List ℕ)
  | svcData (dev : ℕ) (svc : ℕ) (value : List ℕ)
  | mithermAnn (dev : ℕ) (ann : mitherm.Announcement)
deriving DecidableEq, Repr

/-- The loop body of `DeviceEvent::ManufacturerData` in `process_event`
(src/main.rs, lines 222–265).  `info` models
`session.get_device_info` (`none` = `Err`); `now` models `Utc::now()`.
A failing `pread` propagates via `?`, so it aborts the remaining pairs
of the event and surfaces the error. -/
def processMfrPairs (info : ℕ → Option DeviceInfo) (now : ℤ) (dev : ℕ) :
    State → List (ℕ × List ℕ) → State × List Obs × Option DecodeErr
  | s, [] => (s, [], none)
  | s, (key, value) :: rest =>
    if key = aranet4.MANUFACTURER_ID then
      match aranet4.try_from_ctx value with
      | .error er => (s, [], some er)
      | .ok (ann, _) =>
        let s1 : State := { s with aranet4 := ainsert s.aranet4 dev (now, ann) }
        let step :=
          if (alookup s1.devices dev).isSome then (s1, ([] : List Obs))
          else
            match info dev with
            | some i => ({ s1 with devices := ainsert s1.devices dev i },
                [Obs.gettingInfo dev])
            | none => (s1, [Obs.gettingInfo dev, Obs.infoFailed dev])
        let r := processMfrPairs info now dev step.1 rest
        (r.1, Obs.aranet4Ann dev ann :: step.2 ++ r.2.1, r.2.2)
    else if key = 0x004C then
      let r := processMfrPairs info now dev s rest
      (r.1, Obs.appleData dev value :: r.2.1, r.2.2)
    else
      let r := processMfrPairs info now dev s rest
      (r.1, Obs.mfrData dev key value :: r.2.1, r.2.2)

/-- The loop body of `DeviceEvent::ServiceData` in `process_event`
(src/main.rs, lines 267–288): every pair is logged; a pair whose service
id is `0x181A` is decoded as a mitherm announcement (a failure aborts
via `?`), and a successful decode is only logged — the state is never
touched. -/
def processSvcPairs (now : ℤ) (dev : ℕ) :
    State → List (ℕ × List ℕ) → State × List Obs × Option DecodeErr
  | s, [] => (s, [], none)
  | s, (svc, value) :: rest =>
    if svc = 0x181A then
      match mitherm.try_from_ctx value with
      | .error er => (s, [Obs.svcData dev svc value], some er)
      | .ok (ann, _) =>
        let r := processSvcPairs now dev s rest
        (r.1, Obs.svcData dev svc value :: Obs.mithermAnn dev ann :: r.2.1, r.2.2)
    else
      let r := processSvcPairs now dev s rest
      (r.1, Obs.svcData dev svc value :: r.2.1, r.2.2)

/-- `process_event` (src/main.rs): returns the new state, the diagnostic
emissions, and the error surfaced to the caller (`Err` of the Rust
function), if any. -/
def process_event (info : ℕ → Option DeviceInfo) (now : ℤ) (s : State)
    (ev : BluetoothEvent) : State × List Obs × Option DecodeErr :=
  match ev with
  | .adapterPowered a p => (s, [Obs.adapterPowered a p], none)
  | .adapterDiscovering a d => (s, [Obs.adapterDiscovering a d], none)
  | .adapterOther => (s, [], none)
  | .device id (.manufacturerData pairs) => processMfrPairs info now id s pairs
  | .device id (.serviceData pairs) => processSvcPairs now id s pairs
  | .device _ .otherDevice => (s, [], none)
  | .otherEvent => (s, [], none)

inductive OutputFormat
  | json
  | waybar
deriving DecidableEq, Repr

/-- The fields of `Args` that `print_state` reads. -/
structure Args where
  stale : ℤ
  output_format : OutputFormat
deriving DecidableEq, Repr

/-- The staleness filter of `print_state` (src/main.rs, line 131):
keep an entry iff `now - ts < stale`. -/
def freshA4 (m : List (ℕ × (ℤ × aranet4.Announcement))) (now stale : ℤ) :
    List (ℕ × (ℤ × aranet4.Announcement)) :=
  m.filter fun p => now - p.2.1 < stale

/-- Display identifier: the resolved friendly name if known, else the
raw device identifier rendered as text (src/main.rs, lines 133–138). -/
def displayName (devices : List (ℕ × DeviceInfo)) (id : ℕ) : String :=
  ((alookup devices id).bind DeviceInfo.name).getD (toString id)

/-- The waybar sort key (src/main.rs, line 170): `co2.unwrap_or_default()`. -/
def co2Key (ann : aranet4.Announcement) : ℕ := ann.co2.getD 0

/-- One emitted document, with the serialized readings kept as data:
`json` is the per-device mapping; `waybar` carries the reading rendered
as the `text` line (the head of the co2-descending sort) and the
sorted readings rendered into `tooltip`. -/
inductive OutDoc
  | json (entries : List (String × aranet4.Announcement))
  | waybar (text : Option (String × aranet4.Announcement))
      (tooltip : List (String × aranet4.Announcement))
deriving DecidableEq, Repr

/-- Insertion into the display-name-keyed output mapping
(`HashMap<String, &Announcement>`): overwrites any entry already bound
to the same name. -/
def sinsert (l : List (String × aranet4.Announcement)) (k : String)
    (v : aranet4.Announcement) : List (String × aranet4.Announcement) :=
  (k, v) :: l.filter (fun p => p.1 != k)

/-- The `collect()` into `HashMap<String, &Announcement>` of
`print_state` (src/main.rs, lines 127–143): entries are inserted in
iteration order, so two devices resolving to the same display name
collapse to one entry, the later insertion winning. -/
def collectByName (entries : List (String × aranet4.Announcement)) :
    List (String × aranet4.Announcement) :=
  entries.foldl (fun m p => sinsert m p.1 p.2) []

/-- `print_state` (src/main.rs): project the non-stale entries and
collect them into a mapping keyed by display name (duplicate names
collapse, last write wins); if the mapping is empty, return without
writing anything (`none`); otherwise write exactly one
newline-terminated document (`some doc`).  In waybar mode the mapping's
readings are sorted descending by `co2Key` (a stable sort, as Rust's
`sort_by_key`) and `text` is the first reading. -/
def print_state (args : Args) (s : State) (now : ℤ) : Option OutDoc :=
  let output := collectByName
    ((freshA4 s.aranet4 now args.stale).map fun p => (displayName s.devices p.1, p.2.2))
  if output.isEmpty then none
  else
    some
      (match args.output_format with
       | .json => .json output
       | .waybar =>
         let sorted := output.insertionSort fun a b => co2Key b.2 ≤ co2Key a.2
         .waybar sorted.head? sorted)

/-- One ready item of the `select!` loop in `run` (src/main.rs):
a timer tick or a transport event, with the wall-clock instant at which
it is handled. -/
inductive Poll
  | outputTick (now : ℤ)
  | event (now : ℤ) (ev : BluetoothEvent)
deriving DecidableEq, Repr

/-- What one loop iteration did: printed (or skipped) a document, or
handled an event (whose error, if any, was logged and swallowed). -/
inductive LoopOut
  | printed (d : Option OutDoc)
  | handled (obs : List Obs) (er : Option DecodeErr)
deriving DecidableEq, Repr

/-- The event loop `run` (src/main.rs): every ready item is consumed and
produces one `LoopOut`; an event-processing error is logged, never
propagated, so the loop continues with the next item. -/
def run (info : ℕ → Option DeviceInfo) (args : Args) :
    State → List Poll → State × List LoopOut
  | s, [] => (s, [])
  | s, p :: rest =>
    match p with
    | .outputTick now =>
      let r := run info args s rest
      (r.1, .printed (print_state args s now) :: r.2)
    | .event now ev =>
      let pr := process_event info now s ev
      let r := run info args pr.1 rest
      (r.1, .handled pr.2.1 pr.2.2 :: r.2)

/-!  Decoder characterization lemmas. -/

/-- The first read boundary of the Kind A decoder that exceeds a payload
of length `n` (the requested end offset of the failing field), or `17`
when every field fits. -/
def araNeed (n : ℕ) : ℕ :=
  if n < 10 then 10 else if n < 12 then 12 else if n < 14 then 14
  else if n < 15 then 15 else if n < 16 then 16 else 17

/-- The first read boundary of the Kind B decoder that exceeds a payload
of length `n`, or `13` when every field fits. -/
def mitNeed (n : ℕ) : ℕ :=
  if n < 8 then 8 else if n < 10 then 10 else if n < 12 then 12 else 13

theorem ara_ok_of_len {l : List ℕ} (h : 17 ≤ l.length) :
    aranet4.try_from_ctx l =
      .ok
        ({ co2 :=
             if (l.getD 8 0 + 256 * l.getD 9 0) >>> 15 ≠ 1 then
               some (l.getD 8 0 + 256 * l.getD 9 0)
             else none
           temperature :=
             if ((l.getD 10 0 + 256 * l.getD 11 0) >>> 14) &&& 1 ≠ 1 then
               some (F64.mul ⟨l.getD 10 0 + 256 * l.getD 11 0, 0⟩ c005)
             else none
           pressure :=
             if (l.getD 12 0 + 256 * l.getD 13 0) >>> 15 ≠ 1 then
               some (F64.mul ⟨l.getD 12 0 + 256 * l.getD 13 0, 0⟩ c01)
             else none
           humidity := l.getD 14 0
           battery := l.getD 15 0
           status := l.getD 16 0 }, 17) := by
  simp [aranet4.try_from_ctx, gread16le, gread8, show 10 ≤ l.length by omega,
    show 12 ≤ l.length by omega, show 14 ≤ l.length by omega,
    show 15 ≤ l.length by omega, show 16 ≤ l.length by omega,
    show 17 ≤ l.length by omega]

theorem ara_err_of_len {l : List ℕ} (h : l.length < 17) :
    aranet4.try_from_ctx l = .error ⟨araNeed l.length, l.length⟩ := by
  by_cases h10 : l.length < 10
  · simp [aranet4.try_from_ctx, gread16le, araNeed,
      show ¬ (10 ≤ l.length) by omega, h10]
  · by_cases h12 : l.length < 12
    · simp [aranet4.try_from_ctx, gread16le, araNeed, show 10 ≤ l.length by omega,
        show ¬ (12 ≤ l.length) by omega, h10, h12]
    · by_cases h14 : l.length < 14
      · simp [aranet4.try_from_ctx, gread16le, araNeed, show 10 ≤ l.length by omega,
          show 12 ≤ l.length by omega, show ¬ (14 ≤ l.length) by omega, h10, h12, h14]
      · by_cases h15 : l.length < 15
        · simp [aranet4.try_from_ctx, gread16le, gread8, araNeed,
            show 10 ≤ l.length by omega, show 12 ≤ l.length by omega,
            show 14 ≤ l.length by omega, show ¬ (15 ≤ l.length) by omega,
            h10, h12, h14, h15]
        · by_cases h16 : l.length < 16
          · simp [aranet4.try_from_ctx, gread16le, gread8, araNeed,
              show 10 ≤ l.length by omega, show 12 ≤ l.length by omega,
              show 14 ≤ l.length by omega, show 15 ≤ l.length by omega,
              show ¬ (16 ≤ l.length) by omega, h10, h12, h14, h15, h16]
          · simp [aranet4.try_from_ctx, gread16le, gread8, araNeed,
              show 10 ≤ l.length by omega, show 12 ≤ l.length by omega,
              show 14 ≤ l.length by omega, show 15 ≤ l.length by omega,
              show 16 ≤ l.length by omega, show ¬ (17 ≤ l.length) by omega,
              h10, h12, h14, h15, h16]

theorem mit_ok_of_len {l : List ℕ} (h : 13 ≤ l.length) :
    mitherm.try_from_ctx l =
      .ok
        ({ temperature := F64.mul ⟨l.getD 6 0 + 256 * l.getD 7 0, 0⟩ c001
           humidity := F64.mul ⟨l.getD 8 0 + 256 * l.getD 9 0, 0⟩ c001
           battery_mv := l.getD 10 0 + 256 * l.getD 11 0
           battery_percent := l.getD 12 0 }, 13) := by
  simp [mitherm.try_from_ctx, gread16le, gread8, show 8 ≤ l.length by omega,
    show 10 ≤ l.length by omega, show 12 ≤ l.length by omega,
    show 13 ≤ l.length by omega]

theorem mit_err_of_len {l : List ℕ} (h : l.length < 13) :
    mitherm.try_from_ctx l = .error ⟨mitNeed l.length, l.length⟩ := by
  by_cases h8 : l.length < 8
  · simp [mitherm.try_from_ctx, gread16le, mitNeed,
      show ¬ (8 ≤ l.length) by omega, h8]
  · by_cases h10 : l.length < 10
    · simp [mitherm.try_from_ctx, gread16le, mitNeed, show 8 ≤ l.length by omega,
        show ¬ (10 ≤ l.length) by omega, h8, h10]
    · by_cases h12 : l.length < 12
      · simp [mitherm.try_from_ctx, gread16le, mitNeed, show 8 ≤ l.length by omega,
          show 10 ≤ l.length by omega, show ¬ (12 ≤ l.length) by omega, h8, h10, h12]
      · simp [mitherm.try_from_ctx, gread16le, gread8, mitNeed,
          show 8 ≤ l.length by omega, show 10 ≤ l.length by omega,
          show 12 ≤ l.length by omega, show ¬ (13 ≤ l.length) by omega, h8, h10, h12]

/-- The Kind A test payload of `src/aranet4.rs` (`test_announcement`). -/
def a4TestBytes : List ℕ :=
  [0x21, 0x13, 0x04, 0x01, 0x00, 0x0c, 0x0f, 0x01, 0xb9, 0x02, 0xd9, 0x01,
   0x4b, 0x27, 0x33, 0x14, 0x01, 0x3c, 0x00, 0x3c, 0x00, 0xc6]

/-- The Kind B test payload of `src/mitherm.rs` (`test_announcement`). -/
def mtTestBytes : List ℕ :=
  [0x80, 0x49, 0xd8, 0x38, 0xc1, 0xa4, 0xbe, 0x08, 0x44, 0x15, 0xbc, 0x0b,
   0x64, 0xef, 0x04]

theorem getD_take_of_lt {l : List ℕ} {n i : ℕ} (h : i < n) :
    (l.take n).getD i 0 = l.getD i 0 := by
  simp [List.getD_eq_getElem?_getD, List.getElem?_take, h]

theorem shiftRight15_eq_one_iff {c : ℕ} (hc : c < 65536) :
    (c >>> 15 = 1) ↔ c.testBit 15 := by
  rw [Nat.testBit_to_div_mod]
  simp [Nat.shiftRight_eq_div_pow]
  omega

theorem shiftRight14_and_one_iff {t : ℕ} : ((t >>> 14) &&& 1 = 1) ↔ t.testBit 14 := by
  rw [Nat.testBit_to_div_mod, Nat.and_one_is_mod]
  simp [Nat.shiftRight_eq_div_pow]

/-- C6 — counterexample.  The claim asserts the decoded float fields
equal 23.65 °C and 1005.9 hPa exactly; the code computes them as IEEE
doubles (`v as f64 * 0.05`, `v as f64 * 0.1`), whose exact values are
`6656883199207015·2⁻⁴⁸ = 23.650000000000002…` and
`8847989971039028·2⁻⁴³ = 1005.9000000000001…` — as the repository's own
unit test asserts — which differ from 23.65 and 1005.9. -/
theorem c6_float_exactness_counterexample :
    aranet4.try_from_ctx a4TestBytes =
      .ok
        ({ co2 := some 697, temperature := some ⟨6656883199207015, -48⟩,
           pressure := some ⟨8847989971039028, -43⟩, humidity := 51,
           battery := 20, status := 1 }, 17) ∧
    F64.toRat ⟨6656883199207015, -48⟩ ≠ 2365 / 100 ∧
    F64.toRat ⟨8847989971039028, -43⟩ ≠ 10059 / 10 := by
  refine ⟨by rfl, ?_, ?_⟩
  · simp only [F64.toRat, Int.reduceNeg, Int.reduceToNat]
    norm_num
  · simp only [F64.toRat, Int.reduceNeg, Int.reduceToNat]
    norm_num

/-- C6 — amended.  Decoding the 22-byte test payload as Kind A from
offset 0 succeeds and yields co2 = 697, humidity = 51, battery = 20,
status = 1 exactly, and temperature and pressure equal to the IEEE-754
doubles `473 * 0.05 = 6656883199207015·2⁻⁴⁸` (≈ 23.650000000000002) and
`10059 * 0.1 = 8847989971039028·2⁻⁴³` (≈ 1005.9000000000001), matching
the repository's own unit test rather than the exact decimals 23.65 and
1005.9. -/
theorem c6_test_vector_decodes :
    aranet4.try_from_ctx a4TestBytes =
      .ok
        ({ co2 := some 697, temperature := some ⟨6656883199207015, -48⟩,
           pressure := some ⟨8847989971039028, -43⟩, humidity := 51,
           battery := 20, status := 1 }, 17) ∧
    F64.toRat ⟨6656883199207015, -48⟩ = 6656883199207015 / 281474976710656 ∧
    F64.toRat ⟨8847989971039028, -43⟩ = 8847989971039028 / 8796093022208 := by
  refine ⟨by rfl, ?_, ?_⟩
  · simp only [F64.toRat, Int.reduceNeg, Int.reduceToNat]
    norm_num
  · simp only [F64.toRat, Int.reduceNeg, Int.reduceToNat]
    norm_num

/-- C7.  Each decoder has a fixed minimum payload length — 17 bytes for
Kind A (fields at offsets 8–16), 13 for Kind B (fields at offsets
6–12) — such that decoding succeeds iff the payload is at least that
long; a shorter payload fails with the bounds error of the first field,
in declared order, that does not fit (`araNeed`/`mitNeed` give that
field's end offset, which exceeds the payload length), and the result
never depends on bytes at or past the minimum length (no read past the
fixed window, fields after the failing one unread). -/
theorem c7_truncation_minimum_length (l : List ℕ) :
    ((aranet4.try_from_ctx l).isOk ↔ 17 ≤ l.length) ∧
    (l.length < 17 →
      aranet4.try_from_ctx l = .error ⟨araNeed l.length, l.length⟩ ∧
      l.length < araNeed l.length ∧ araNeed l.length ≤ 17) ∧
    aranet4.try_from_ctx l = aranet4.try_from_ctx (l.take 17) ∧
    ((mitherm.try_from_ctx l).isOk ↔ 13 ≤ l.length) ∧
    (l.length < 13 →
      mitherm.try_from_ctx l = .error ⟨mitNeed l.length, l.length⟩ ∧
      l.length < mitNeed l.length ∧ mitNeed l.length ≤ 13) ∧
    mitherm.try_from_ctx l = mitherm.try_from_ctx (l.take 13) := by
  refine ⟨?_, ?_, ?_, ?_, ?_, ?_⟩
  · by_cases h : 17 ≤ l.length
    · simp [ara_ok_of_len h, Except.isOk, Except.toBool, h]
    · have e := ara_err_of_len (show l.length < 17 by omega)
      simp [e, Except.isOk, Except.toBool]
      omega
  · intro h
    refine ⟨ara_err_of_len h, ?_, ?_⟩ <;>
      · unfold araNeed
        split_ifs <;> omega
  · by_cases h : 17 ≤ l.length
    · have ht : (l.take 17).length = 17 := by simp [List.length_take]; omega
      rw [ara_ok_of_len h, ara_ok_of_len (by omega),
        getD_take_of_lt (by omega), getD_take_of_lt (by omega),
        getD_take_of_lt (by omega), getD_take_of_lt (by omega),
        getD_take_of_lt (by omega), getD_take_of_lt (by omega),
        getD_take_of_lt (by omega), getD_take_of_lt (by omega),
        getD_take_of_lt (by omega)]
    · rw [List.take_of_length_le (by omega)]
  · by_cases h : 13 ≤ l.length
    · simp [mit_ok_of_len h, Except.isOk, Except.toBool, h]
    · have e := mit_err_of_len (show l.length < 13 by omega)
      simp [e, Except.isOk, Except.toBool]
      omega
  · intro h
    refine ⟨mit_err_of_len h, ?_, ?_⟩ <;>
      · unfold mitNeed
        split_ifs <;> omega
  · by_cases h : 13 ≤ l.length
    · have ht : (l.take 13).length = 13 := by simp [List.length_take]; omega
      rw [mit_ok_of_len h, mit_ok_of_len (by omega),
        getD_take_of_lt (by omega), getD_take_of_lt (by omega),
        getD_take_of_lt (by omega), getD_take_of_lt (by omega),
        getD_take_of_lt (by omega), getD_take_of_lt (by omega),
        getD_take_of_lt (by omega)]
    · rw [List.take_of_length_le (by omega)]

/-- C7 — witness at concrete inputs: an 11-byte Kind A payload fails at
the second field (bytes 10–11, requested end 12), and a 9-byte Kind B
payload fails at the second field (requested end 10). -/
theorem c7_truncation_minimum_length_witness :
    aranet4.try_from_ctx (List.replicate 11 0) = .error ⟨12, 11⟩ ∧
    mitherm.try_from_ctx (List.replicate 9 0) = .error ⟨10, 9⟩ := by
  constructor
  · have h := ((c7_truncation_minimum_length (List.replicate 11 0)).2.1 (by decide)).1
    simpa using h
  · have h := ((c7_truncation_minimum_length (List.replicate 9 0)).2.2.2.2.1 (by decide)).1
    simpa using h

/-- C10.  Each decoder reads a fixed window of the payload and nothing
else: two payloads (long enough to decode) that agree on bytes 8–16
decode to equal Kind A results, and two that agree on bytes 6–12 decode
to equal Kind B results — the leading prefix bytes (0–7 resp. 0–5) and
any bytes past the window never influence the reading. -/
theorem c10_fixed_window_dependence (p q : List ℕ) :
    (17 ≤ p.length → 17 ≤ q.length →
      (∀ i, i < 17 → 8 ≤ i → p.getD i 0 = q.getD i 0) →
      aranet4.try_from_ctx p = aranet4.try_from_ctx q) ∧
    (13 ≤ p.length → 13 ≤ q.length →
      (∀ i, i < 13 → 6 ≤ i → p.getD i 0 = q.getD i 0) →
      mitherm.try_from_ctx p = mitherm.try_from_ctx q) := by
  constructor
  · intro hp hq hag
    rw [ara_ok_of_len hp, ara_ok_of_len hq, hag 8 (by omega) (by omega),
      hag 9 (by omega) (by omega), hag 10 (by omega) (by omega),
      hag 11 (by omega) (by omega), hag 12 (by omega) (by omega),
      hag 13 (by omega) (by omega), hag 14 (by omega) (by omega),
      hag 15 (by omega) (by omega), hag 16 (by omega) (by omega)]
  · intro hp hq hag
    rw [mit_ok_of_len hp, mit_ok_of_len hq, hag 6 (by omega) (by omega),
      hag 7 (by omega) (by omega), hag 8 (by omega) (by omega),
      hag 9 (by omega) (by omega), hag 10 (by omega) (by omega),
      hag 11 (by omega) (by omega), hag 12 (by omega) (by omega)]

/-- C10 — witness: the Kind A test payload with its first 8 bytes
zeroed and extra trailing bytes decodes identically to the original,
and likewise for Kind B with its 6-byte head zeroed. -/
theorem c10_fixed_window_dependence_witness :
    aranet4.try_from_ctx a4TestBytes =
      aranet4.try_from_ctx
        ([0, 0, 0, 0, 0, 0, 0, 0, 0xb9, 0x02, 0xd9, 0x01, 0x4b, 0x27, 0x33,
          0x14, 0x01, 0xff, 0xff] : List ℕ) ∧
    mitherm.try_from_ctx mtTestBytes =
      mitherm.try_from_ctx
        ([0, 0, 0, 0, 0, 0, 0xbe, 0x08, 0x44, 0x15, 0xbc, 0x0b, 0x64] : List ℕ) := by
  constructor
  · exact (c10_fixed_window_dependence a4TestBytes _).1 (by decide) (by decide) (by decide)
  · exact (c10_fixed_window_dependence mtTestBytes _).2 (by decide) (by decide) (by decide)

/-- C5.  For a 17-byte Kind A frame assembled from arbitrary 16-bit
field words `c`, `t`, `p` (stored little-endian at offsets 8, 10, 12),
bytes `hu`, `ba`, `st`, and an arbitrary 8-byte transport prefix:
co2 is absent iff bit 15 of `c` is set and otherwise equals `c` as-is;
temperature is absent iff bit 14 of `t` is set and otherwise is the
double `t * 0.05`; pressure is absent iff bit 15 of `p` is set and
otherwise is the double `p * 0.1`; each sentinel bit decides only its
own field, whatever the other bits and fields hold. -/
theorem c5_sentinel_independence (pre : List ℕ) (c t p hu ba st : ℕ)
    (hpre : pre.length = 8) (hc : c < 65536) (ht : t < 65536) (hp : p < 65536) :
    aranet4.try_from_ctx
        (pre ++ [c % 256, c / 256, t % 256, t / 256, p % 256, p / 256, hu, ba, st]) =
      .ok
        ({ co2 := if c.testBit 15 then none else some c,
           temperature := if t.testBit 14 then none else some (F64.mul ⟨t, 0⟩ c005),
           pressure := if p.testBit 15 then none else some (F64.mul ⟨p, 0⟩ c01),
           humidity := hu, battery := ba, status := st }, 17) := by
  have hlen : (pre ++ [c % 256, c / 256, t % 256, t / 256, p % 256, p / 256,
      hu, ba, st]).length = 17 := by simp [hpre]
  rw [ara_ok_of_len (by omega)]
  rw [List.getD_append_right _ _ _ _ (by omega), List.getD_append_right _ _ _ _ (by omega),
    List.getD_append_right _ _ _ _ (by omega), List.getD_append_right _ _ _ _ (by omega),
    List.getD_append_right _ _ _ _ (by omega), List.getD_append_right _ _ _ _ (by omega),
    List.getD_append_right _ _ _ _ (by omega), List.getD_append_right _ _ _ _ (by omega),
    List.getD_append_right _ _ _ _ (by omega)]
  simp only [hpre]
  norm_num
  rw [Nat.mod_add_div c 256, Nat.mod_add_div t 256, Nat.mod_add_div p 256]
  refine ⟨?_, ?_, ?_⟩
  · simp only [shiftRight15_eq_one_iff hc]
  · have ht2 : (t >>> 14 % 2 = 0) ↔ ¬ t.testBit 14 := by
      rw [Nat.testBit_to_div_mod]
      simp [Nat.shiftRight_eq_div_pow]
    simp only [ht2]
    cases htb : t.testBit 14 <;> simp [htb]
  · simp only [shiftRight15_eq_one_iff hp]

/-- C5 — witness: sentinel bits 15/14/15 set for co2 and temperature
(absent) and clear for pressure (present, scaled). -/
theorem c5_sentinel_independence_witness :
    aranet4.try_from_ctx
        ([0, 0, 0, 0, 0, 0, 0, 0] ++
          [32768 % 256, 32768 / 256, 16384 % 256, 16384 / 256, 0 % 256, 0 / 256,
           1, 2, 3]) =
      .ok
        ({ co2 := if (32768 : ℕ).testBit 15 then none else some 32768,
           temperature :=
             if (16384 : ℕ).testBit 14 then none else some (F64.mul ⟨16384, 0⟩ c005),
           pressure := if (0 : ℕ).testBit 15 then none else some (F64.mul ⟨0, 0⟩ c01),
           humidity := 1, battery := 2, status := 3 }, 17) :=
  c5_sentinel_independence [0, 0, 0, 0, 0, 0, 0, 0] 32768 16384 0 1 2 3 rfl
    (by decide) (by decide) (by decide)

/-!  Association-list lemmas for the store model. -/

theorem alookup_ainsert {α : Type} (l : List (ℕ × α)) (k : ℕ) (v : α) :
    alookup (ainsert l k v) k = some v := by
  simp [ainsert, alookup]

theorem alookup_filter_out {α : Type} {k k' : ℕ} (h : k' ≠ k) :
    ∀ l : List (ℕ × α), alookup (l.filter fun p => p.1 != k) k' = alookup l k'
  | [] => rfl
  | (a, b) :: t => by
    by_cases ha : a = k
    · simp [List.filter, ha, alookup, h, alookup_filter_out h t]
    · have hb : (a != k) = true := by simp [ha]
      simp [List.filter, hb, alookup, alookup_filter_out h t]

theorem alookup_ainsert_ne {α : Type} (l : List (ℕ × α)) (k k' : ℕ) (v : α)
    (h : k' ≠ k) : alookup (ainsert l k v) k' = alookup l k' := by
  simp [ainsert, alookup, h, alookup_filter_out h l]

/-!  Event-processing lemmas. -/

theorem processMfrPairs_unknown (info : ℕ → Option DeviceInfo) (now : ℤ) (dev : ℕ) :
    ∀ (pairs : List (ℕ × List ℕ)) (s : State),
      (∀ kv ∈ pairs, kv.1 ≠ aranet4.MANUFACTURER_ID) →
      processMfrPairs info now dev s pairs =
        (s,
          pairs.map fun kv =>
            if kv.1 = 0x004C then Obs.appleData dev kv.2 else Obs.mfrData dev kv.1 kv.2,
          none)
  | [], s, _ => rfl
  | (k, v) :: rest, s, h => by
    have hk : k ≠ aranet4.MANUFACTURER_ID := h (k, v) (by simp)
    have hr := processMfrPairs_unknown info now dev rest s
      (fun x hx => h x (by simp [hx]))
    simp only [processMfrPairs]
    rw [if_neg hk]
    by_cases hA : k = 0x004C
    · rw [if_pos hA]
      simp [hr, hA]
    · rw [if_neg hA]
      simp [hr, hA]

theorem processSvcPairs_unknown (now : ℤ) (dev : ℕ) :
    ∀ (pairs : List (ℕ × List ℕ)) (s : State), (∀ kv ∈ pairs, kv.1 ≠ 0x181A) →
      processSvcPairs now dev s pairs =
        (s, pairs.map fun kv => Obs.svcData dev kv.1 kv.2, none)
  | [], s, _ => rfl
  | (k, v) :: rest, s, h => by
    have hk : k ≠ 0x181A := h (k, v) (by simp)
    have hr := processSvcPairs_unknown now dev rest s (fun x hx => h x (by simp [hx]))
    simp only [processSvcPairs]
    rw [if_neg hk]
    simp [hr]

theorem processSvcPairs_state (now : ℤ) (dev : ℕ) :
    ∀ (pairs : List (ℕ × List ℕ)) (s : State), (processSvcPairs now dev s pairs).1 = s
  | [], _ => rfl
  | (k, v) :: rest, s => by
    have hr := processSvcPairs_state now dev rest s
    simp only [processSvcPairs]
    by_cases hk : k = 0x181A
    · rw [if_pos hk]
      cases hd : mitherm.try_from_ctx v with
      | error er => simp [hd]
      | ok pr => simp [hd, hr]
    · rw [if_neg hk]
      simp [hr]

/-- C8.  Frame events whose vendor keys are all unmapped (no pair keyed
by the Aranet4 manufacturer id `0x0702`, resp. by the environmental
service id `0x181A`) leave the store and the device-name side table
exactly unchanged, surface no error, and produce only per-pair
trace observations. -/
theorem c8_unknown_keys_ignored (info : ℕ → Option DeviceInfo) (now : ℤ) (s : State)
    (dev : ℕ) (pairs : List (ℕ × List ℕ)) :
    ((∀ kv ∈ pairs, kv.1 ≠ aranet4.MANUFACTURER_ID) →
      process_event info now s (.device dev (.manufacturerData pairs)) =
        (s,
          pairs.map fun kv =>
            if kv.1 = 0x004C then Obs.appleData dev kv.2 else Obs.mfrData dev kv.1 kv.2,
          none)) ∧
    ((∀ kv ∈ pairs, kv.1 ≠ 0x181A) →
      process_event info now s (.device dev (.serviceData pairs)) =
        (s, pairs.map fun kv => Obs.svcData dev kv.1 kv.2, none)) :=
  ⟨fun h => processMfrPairs_unknown info now dev pairs s h,
   fun h => processSvcPairs_unknown now dev pairs s h⟩

/-- C8 — witness: an event with an Apple pair and an arbitrary unknown
pair, and a service-data event with a foreign uuid, leave a nonempty
store untouched and return no error. -/
theorem c8_unknown_keys_ignored_witness :
    process_event (fun _ => none) 4
        ⟨[(3, (1, { co2 := some 5, temperature := none, pressure := none,
                    humidity := 1, battery := 2, status := 0 }))], []⟩
        (.device 9 (.manufacturerData [(0x004C, [1, 2]), (0x1234, [3])])) =
      (⟨[(3, (1, { co2 := some 5, temperature := none, pressure := none,
                   humidity := 1, battery := 2, status := 0 }))], []⟩,
        [Obs.appleData 9 [1, 2], Obs.mfrData 9 0x1234 [3]], none) ∧
    process_event (fun _ => none) 4 ⟨[], []⟩
        (.device 9 (.serviceData [(0x2222, [7])])) =
      (⟨[], []⟩, [Obs.svcData 9 0x2222 [7]], none) := by
  constructor
  · have h := (c8_unknown_keys_ignored (fun _ => none) 4
      ⟨[(3, (1, { co2 := some 5, temperature := none, pressure := none,
                  humidity := 1, battery := 2, status := 0 }))], []⟩
      9 [(0x004C, [1, 2]), (0x1234, [3])]).1 (by decide)
    simpa using h
  · have h := (c8_unknown_keys_ignored (fun _ => none) 4 ⟨[], []⟩
      9 [(0x2222, [7])]).2 (by decide)
    simpa using h

theorem processMfrPairs_stores (info : ℕ → Option DeviceInfo) (now : ℤ) (dev : ℕ) :
    ∀ (pairs : List (ℕ × List ℕ)) (s : State) (v : List ℕ)
      (ann : aranet4.Announcement) (n : ℕ),
      (pairs.map Prod.fst).Nodup → (aranet4.MANUFACTURER_ID, v) ∈ pairs →
      aranet4.try_from_ctx v = .ok (ann, n) →
      alookup (processMfrPairs info now dev s pairs).1.aranet4 dev = some (now, ann)
  | [], s, v, ann, n, _, hmem, _ => by simp at hmem
  | (k, w) :: rest, s, v, ann, n, hnd, hmem, hok => by
    have hnd' : (rest.map Prod.fst).Nodup := (List.nodup_cons.mp (by simpa using hnd)).2
    by_cases hk : k = aranet4.MANUFACTURER_ID
    · subst hk
      have hknotin : aranet4.MANUFACTURER_ID ∉ rest.map Prod.fst :=
        (List.nodup_cons.mp (by simpa using hnd)).1
      have hrest : ∀ kv ∈ rest, kv.1 ≠ aranet4.MANUFACTURER_ID := by
        intro kv hkv he
        exact hknotin (he ▸ List.mem_map_of_mem Prod.fst hkv)
      have hstep : ∀ st : State,
          processMfrPairs info now dev st rest =
            (st,
              rest.map fun kv =>
                if kv.1 = 0x004C then Obs.appleData dev kv.2
                else Obs.mfrData dev kv.1 kv.2,
              none) :=
        fun st => processMfrPairs_unknown info now dev rest st hrest
      have hwv : w = v := by
        rcases List.mem_cons.mp hmem with hh | ht
        · exact ((Prod.ext_iff.mp hh).2).symm
        · exact absurd (List.mem_map_of_mem Prod.fst ht) hknotin
      subst hwv
      simp only [processMfrPairs, if_pos rfl]
      rw [hok]
      by_cases hdi : (alookup s.devices dev).isSome
      · simp [hdi, hstep, alookup_ainsert]
      · cases hinfo : info dev with
        | some i => simp [hdi, hinfo, hstep, alookup_ainsert]
        | none => simp [hdi, hinfo, hstep, alookup_ainsert]
    · have hmem' : (aranet4.MANUFACTURER_ID, v) ∈ rest := by
        rcases List.mem_cons.mp hmem with hh | ht
        · exact absurd ((Prod.ext_iff.mp hh).1).symm hk
        · exact ht
      simp only [processMfrPairs]
      rw [if_neg hk]
      by_cases hA : k = 0x004C
      · rw [if_pos hA]
        simpa using processMfrPairs_stores info now dev rest s v ann n hnd' hmem' hok
      · rw [if_neg hA]
        simpa using processMfrPairs_stores info now dev rest s v ann n hnd' hmem' hok

/-- C2 — amended.  A successful Kind A decode (manufacturer key
`0x0702`, distinct keys in the event's mapping) writes
`Store[device] = (now, reading)`.  A Kind B (service-data) event never
mutates the state: successful mitherm decodes are logged only, so no
store entry is created or overwritten and no projection can include
them. -/
theorem c2_successful_decode_store (info : ℕ → Option DeviceInfo) (now : ℤ)
    (s : State) (dev : ℕ) :
    (∀ (pairs : List (ℕ × List ℕ)) (v : List ℕ) (ann : aranet4.Announcement) (n : ℕ),
      (pairs.map Prod.fst).Nodup → (aranet4.MANUFACTURER_ID, v) ∈ pairs →
      aranet4.try_from_ctx v = .ok (ann, n) →
      alookup
          (process_event info now s (.device dev (.manufacturerData pairs))).1.aranet4
          dev =
        some (now, ann)) ∧
    (∀ pairs : List (ℕ × List ℕ),
      (process_event info now s (.device dev (.serviceData pairs))).1 = s) :=
  ⟨fun pairs v ann n h1 h2 h3 =>
      processMfrPairs_stores info now dev pairs s v ann n h1 h2 h3,
   fun pairs => processSvcPairs_state now dev pairs s⟩

/-- C2 — witness: one Kind A frame event stores the decoded test-vector
reading under the event's device at the event's instant. -/
theorem c2_successful_decode_store_witness :
    alookup
        (process_event (fun _ => none) 11 ⟨[], []⟩
            (.device 3 (.manufacturerData [(aranet4.MANUFACTURER_ID, a4TestBytes)]))).1.aranet4
        3 =
      some (11,
        { co2 := some 697, temperature := some ⟨6656883199207015, -48⟩,
          pressure := some ⟨8847989971039028, -43⟩, humidity := 51,
          battery := 20, status := 1 }) :=
  (c2_successful_decode_store (fun _ => none) 11 ⟨[], []⟩ 3).1
    [(aranet4.MANUFACTURER_ID, a4TestBytes)] a4TestBytes _ 17 (by simp) (by simp) rfl

/-- C2 — counterexample.  A service-data event carrying the Kind B test
payload under the mapped service id `0x181A` decodes successfully, yet
the state is returned unchanged: no store entry exists for the device
afterwards, contradicting the claim that a successful Kind B decode
creates a store entry that projections can include. -/
theorem c2_kindb_never_stored_counterexample :
    (mitherm.try_from_ctx mtTestBytes).isOk = true ∧
    (process_event (fun _ => none) 5 ⟨[], []⟩
        (.device 9 (.serviceData [(0x181A, mtTestBytes)]))).1 = ⟨[], []⟩ ∧
    alookup
        (process_event (fun _ => none) 5 ⟨[], []⟩
            (.device 9 (.serviceData [(0x181A, mtTestBytes)]))).1.aranet4 9 = none :=
  ⟨rfl, rfl, rfl⟩

/-- C3 — amended.  The staleness projection keeps an entry iff
`now − captured_at < window` (strictly): the comparison in
`print_state` is `now - ts < stale`, so an entry whose age equals the
window exactly is excluded.  The projection is a pure function of
`(store, now, window)`, hence the boundary decision is identical on
every call with the same inputs. -/
theorem c3_staleness_strict_window (store : List (ℕ × (ℤ × aranet4.Announcement)))
    (now w : ℤ) (entry : ℕ × (ℤ × aranet4.Announcement)) :
    entry ∈ freshA4 store now w ↔ entry ∈ store ∧ now - entry.2.1 < w := by
  simp [freshA4, List.mem_filter]

/-- C3 — counterexample.  An entry captured at 0, projected at
`now = 60` with a 60-second window, has age exactly equal to the
window; the claim says it is included (`age ≤ window`), but the code's
strict comparison excludes it — the projection is empty. -/
theorem c3_boundary_excluded_counterexample :
    freshA4
        [(0, (0, { co2 := some 1, temperature := none, pressure := none,
                   humidity := 2, battery := 3, status := 0 }))] 60 60 = [] ∧
    (60 : ℤ) - 0 ≤ 60 := ⟨rfl, by norm_num⟩

/-- C4 — amended.  On a timer tick, `print_state` emits exactly one
newline-terminated document iff at least one non-stale entry exists;
when the staleness projection is empty it returns without writing
anything at all — no empty document is produced (the `Output` struct's
`aranet4` key would be skipped, but the whole write is skipped
first). -/
theorem foldl_sinsert_ne_nil :
    ∀ (l : List (String × aranet4.Announcement))
      (m : List (String × aranet4.Announcement)), m ≠ [] →
      l.foldl (fun m p => sinsert m p.1 p.2) m ≠ []
  | [], _, hm => hm
  | p :: t, m, _ =>
    foldl_sinsert_ne_nil t (sinsert m p.1 p.2) (by simp [sinsert])

theorem c4_document_iff_nonempty (args : Args) (s : State) (now : ℤ) :
    (print_state args s now).isSome ↔ freshA4 s.aranet4 now args.stale ≠ [] := by
  by_cases h : freshA4 s.aranet4 now args.stale = []
  · simp [print_state, collectByName, h]
  · have hne : ¬ (collectByName ((freshA4 s.aranet4 now args.stale).map
        fun p => (displayName s.devices p.1, p.2.2))).isEmpty = true := by
      cases hf : freshA4 s.aranet4 now args.stale with
      | nil => exact absurd hf h
      | cons e rest =>
        simp only [collectByName, List.map_cons, List.foldl_cons, List.isEmpty_iff]
        exact foldl_sinsert_ne_nil _ _ (by simp [sinsert])
    simp only [print_state, hne, if_neg]
    simp [h]

/-- C4 — counterexample.  With an empty store (hence no non-stale
reading of any kind) a timer tick writes nothing: `print_state`
returns no document, contradicting the claim that exactly one
(possibly empty) document is written on every tick. -/
theorem c4_empty_tick_no_document_counterexample :
    print_state ⟨60, .json⟩ ⟨[], []⟩ 0 = none := rfl

/-- Modelled from the spec's words for the aggregated view (`fold all
non-stale Kind A readings field-by-field using maximum; a field absent
on a given reading does not participate`); the code has no such fold,
so this definition exists only to compare against the code's output. -/
def specMaxFoldF64 (xs : List (Option F64)) : Option F64 :=
  xs.foldr
    (fun a acc =>
      match a, acc with
      | none, x => x
      | some v, none => some v
      | some v, some w => some (if F64.le v w then w else v))
    none

/-- Modelled from the spec: the field-wise maximum of the temperature
fields of a list of Kind A readings. -/
def specMaxFoldTemperature (l : List aranet4.Announcement) : Option F64 :=
  specMaxFoldF64 (l.map aranet4.Announcement.temperature)

/-- C9 — counterexample.  Two fresh Kind A readings: one with co2 800
and temperature 10.0, one with co2 500 and temperature 20.0.  The
field-wise max fold the claim describes would aggregate temperature
20.0, but the code's summary output carries the whole reading with the
highest co2 — temperature 10.0 — so no field-by-field fold happens. -/
theorem c9_no_fieldwise_fold_counterexample :
    print_state ⟨60, .waybar⟩
        ⟨[(0, (0, { co2 := some 800, temperature := some ⟨10, 0⟩, pressure := none,
                    humidity := 0, battery := 0, status := 0 })),
          (1, (0, { co2 := some 500, temperature := some ⟨20, 0⟩, pressure := none,
                    humidity := 0, battery := 0, status := 0 }))], []⟩ 0 =
      some
        (.waybar
          (some ("0", { co2 := some 800, temperature := some ⟨10, 0⟩, pressure := none,
                        humidity := 0, battery := 0, status := 0 }))
          [("0", { co2 := some 800, temperature := some ⟨10, 0⟩, pressure := none,
                   humidity := 0, battery := 0, status := 0 }),
           ("1", { co2 := some 500, temperature := some ⟨20, 0⟩, pressure := none,
                   humidity := 0, battery := 0, status := 0 })]) ∧
    specMaxFoldTemperature
        [{ co2 := some 800, temperature := some ⟨10, 0⟩, pressure := none,
           humidity := 0, battery := 0, status := 0 },
         { co2 := some 500, temperature := some ⟨20, 0⟩, pressure := none,
           humidity := 0, battery := 0, status := 0 }] = some ⟨20, 0⟩ ∧
    (⟨10, 0⟩ : F64) ≠ ⟨20, 0⟩ :=
  ⟨rfl, rfl, by decide⟩

/-- C9 — amended.  The code performs no field-wise aggregation.  The
non-stale readings are first collected into a mapping keyed by display
name (duplicate names collapse to one reading, the later insertion
winning); in summary (waybar) mode the mapping's readings are sorted
descending by `co2.unwrap_or(0)` and the first whole reading is
emitted as the text line: it is one of the mapping's readings and
maximizes the co2 key among them (so with two distinctly-named
readings of co2 500 and 800 the emitted co2 is 800, and a reading with
absent co2 ranks as 0), but its other fields are its own, not
field-wise maxima; JSON mode emits the per-name mapping with no
aggregation. -/
theorem c9_waybar_selects_top_co2 (s : State) (now w : ℤ)
    (top : String × aranet4.Announcement)
    (tooltip : List (String × aranet4.Announcement)) :
    print_state ⟨w, .waybar⟩ s now = some (.waybar (some top) tooltip) →
    top ∈ tooltip ∧
    tooltip.Perm
      (collectByName
        ((freshA4 s.aranet4 now w).map fun p => (displayName s.devices p.1, p.2.2))) ∧
    ∀ x ∈ tooltip, co2Key x.2 ≤ co2Key top.2 := by
  intro h
  simp only [print_state] at h
  by_cases hne : (collectByName ((freshA4 s.aranet4 now w).map
      fun p => (displayName s.devices p.1, p.2.2))).isEmpty
  · rw [if_pos hne] at h
    exact absurd h (by simp)
  · rw [if_neg hne] at h
    simp only [Option.some.injEq, OutDoc.waybar.injEq] at h
    obtain ⟨h1, h2⟩ := h
    haveI ht : IsTotal (String × aranet4.Announcement)
        (fun a b => co2Key b.2 ≤ co2Key a.2) :=
      ⟨fun a b => le_total (co2Key b.2) (co2Key a.2)⟩
    haveI htr : IsTrans (String × aranet4.Announcement)
        (fun a b => co2Key b.2 ≤ co2Key a.2) :=
      ⟨fun _ _ _ hab hbc => le_trans hbc hab⟩
    have hsorted := List.sorted_insertionSort
      (fun (a b : String × aranet4.Announcement) => co2Key b.2 ≤ co2Key a.2)
      (collectByName
        ((freshA4 s.aranet4 now w).map fun p => (displayName s.devices p.1, p.2.2)))
    have hperm := List.perm_insertionSort
      (fun (a b : String × aranet4.Announcement) => co2Key b.2 ≤ co2Key a.2)
      (collectByName
        ((freshA4 s.aranet4 now w).map fun p => (displayName s.devices p.1, p.2.2)))
    subst h2
    cases hS : List.insertionSort
        (fun (a b : String × aranet4.Announcement) => co2Key b.2 ≤ co2Key a.2)
        (collectByName
          ((freshA4 s.aranet4 now w).map
            fun p => (displayName s.devices p.1, p.2.2))) with
    | nil => rw [hS] at h1; simp at h1
    | cons a t =>
      rw [hS] at h1 hsorted hperm
      simp only [List.head?_cons, Option.some.injEq] at h1
      subst h1
      refine ⟨by simp, hperm, ?_⟩
      intro x hx
      rcases List.mem_cons.mp hx with hxa | hxt
      · subst hxa; exact le_refl _
      · exact (List.sorted_cons.mp hsorted).1 x hxt

/-- C9 — witness at the two-reading instance: the emitted text reading
is among the projected readings and maximizes the co2 key. -/
theorem c9_waybar_selects_top_co2_witness :
    (("0", ⟨some 800, some ⟨10, 0⟩, none, 0, 0, 0⟩) : String × aranet4.Announcement) ∈
      ([("0", ⟨some 800, some ⟨10, 0⟩, none, 0, 0, 0⟩),
        ("1", ⟨some 500, some ⟨20, 0⟩, none, 0, 0, 0⟩)] :
        List (String × aranet4.Announcement)) ∧
    List.Perm
      ([("0", ⟨some 800, some ⟨10, 0⟩, none, 0, 0, 0⟩),
        ("1", ⟨some 500, some ⟨20, 0⟩, none, 0, 0, 0⟩)] :
        List (String × aranet4.Announcement))
      (collectByName
        ((freshA4
            [(0, (0, ⟨some 800, some ⟨10, 0⟩, none, 0, 0, 0⟩)),
             (1, (0, ⟨some 500, some ⟨20, 0⟩, none, 0, 0, 0⟩))] 0 60).map
          fun p => (displayName [] p.1, p.2.2))) ∧
    ∀ x ∈ ([("0", ⟨some 800, some ⟨10, 0⟩, none, 0, 0, 0⟩),
            ("1", ⟨some 500, some ⟨20, 0⟩, none, 0, 0, 0⟩)] :
            List (String × aranet4.Announcement)),
      co2Key x.2 ≤ co2Key (⟨some 800, some ⟨10, 0⟩, none, 0, 0, 0⟩ : aranet4.Announcement) :=
  c9_waybar_selects_top_co2
    ⟨[(0, (0, ⟨some 800, some ⟨10, 0⟩, none, 0, 0, 0⟩)),
      (1, (0, ⟨some 500, some ⟨20, 0⟩, none, 0, 0, 0⟩))], []⟩ 0 60
    ("0", ⟨some 800, some ⟨10, 0⟩, none, 0, 0, 0⟩)
    [("0", ⟨some 800, some ⟨10, 0⟩, none, 0, 0, 0⟩),
     ("1", ⟨some 500, some ⟨20, 0⟩, none, 0, 0, 0⟩)] rfl

/-!  C1 helper lemmas: locality of a decode failure. -/

theorem processMfrPairs_other_dev (info : ℕ → Option DeviceInfo) (now : ℤ) (dev : ℕ) :
    ∀ (pairs : List (ℕ × List ℕ)) (s : State) (d : ℕ), d ≠ dev →
      alookup (processMfrPairs info now dev s pairs).1.aranet4 d = alookup s.aranet4 d ∧
      alookup (processMfrPairs info now dev s pairs).1.devices d = alookup s.devices d
  | [], s, d, hd => ⟨rfl, rfl⟩
  | (k, v) :: rest, s, d, hd => by
    simp only [processMfrPairs]
    by_cases hk : k = aranet4.MANUFACTURER_ID
    · rw [if_pos hk]
      cases hdec : aranet4.try_from_ctx v with
      | error er => exact ⟨rfl, rfl⟩
      | ok pr =>
        obtain ⟨ann, n⟩ := pr
        by_cases hdi : (alookup s.devices dev).isSome
        · have ih := processMfrPairs_other_dev info now dev rest
            ⟨ainsert s.aranet4 dev (now, ann), s.devices⟩ d hd
          simp only [hdi, if_pos]
          exact ⟨by simpa [alookup_ainsert_ne _ _ _ _ hd] using ih.1, by simpa using ih.2⟩
        · cases hinfo : info dev with
          | some i =>
            have ih := processMfrPairs_other_dev info now dev rest
              ⟨ainsert s.aranet4 dev (now, ann), ainsert s.devices dev i⟩ d hd
            simp only [hdi, hinfo, Bool.false_eq_true, if_neg]
            exact ⟨by simpa [alookup_ainsert_ne _ _ _ _ hd] using ih.1,
              by simpa [alookup_ainsert_ne _ _ _ _ hd] using ih.2⟩
          | none =>
            have ih := processMfrPairs_other_dev info now dev rest
              ⟨ainsert s.aranet4 dev (now, ann), s.devices⟩ d hd
            simp only [hdi, hinfo, Bool.false_eq_true, if_neg]
            exact ⟨by simpa [alookup_ainsert_ne _ _ _ _ hd] using ih.1, by simpa using ih.2⟩
    · rw [if_neg hk]
      have ih := processMfrPairs_other_dev info now dev rest s d hd
      by_cases hA : k = 0x004C
      · rw [if_pos hA]
        exact ⟨by simpa using ih.1, by simpa using ih.2⟩
      · rw [if_neg hA]
        exact ⟨by simpa using ih.1, by simpa using ih.2⟩

theorem processMfrPairs_abort (info : ℕ → Option DeviceInfo) (now : ℤ) (dev : ℕ) :
    ∀ (xs : List (ℕ × List ℕ)) (s : State) (v : List ℕ) (er : DecodeErr)
      (ys : List (ℕ × List ℕ)),
      (processMfrPairs info now dev s xs).2.2 = none →
      aranet4.try_from_ctx v = .error er →
      processMfrPairs info now dev s (xs ++ (aranet4.MANUFACTURER_ID, v) :: ys) =
        ((processMfrPairs info now dev s xs).1,
          (processMfrPairs info now dev s xs).2.1, some er)
  | [], s, v, er, ys, _, herr => by
    simp [processMfrPairs, herr]
  | (k, w) :: xs', s, v, er, ys, hnone, herr => by
    simp only [processMfrPairs, List.cons_append] at hnone ⊢
    by_cases hk : k = aranet4.MANUFACTURER_ID
    · subst hk
      simp only [eq_self_iff_true, if_true] at hnone ⊢
      cases hdec : aranet4.try_from_ctx w with
      | error e2 => rw [hdec] at hnone; simp at hnone
      | ok pr =>
        obtain ⟨ann, n⟩ := pr
        rw [hdec] at hnone
        by_cases hdi : (alookup s.devices dev).isSome
        · simp only [hdi, if_pos] at hnone ⊢
          have ih := processMfrPairs_abort info now dev xs'
            ⟨ainsert s.aranet4 dev (now, ann), s.devices⟩ v er ys (by simpa using hnone)
            herr
          simp [ih]
        · cases hinfo : info dev with
          | some i =>
            simp only [hdi, hinfo, Bool.false_eq_true, if_neg] at hnone ⊢
            have ih := processMfrPairs_abort info now dev xs'
              ⟨ainsert s.aranet4 dev (now, ann), ainsert s.devices dev i⟩ v er ys
              (by simpa using hnone) herr
            simp [ih]
          | none =>
            simp only [hdi, hinfo, Bool.false_eq_true, if_neg] at hnone ⊢
            have ih := processMfrPairs_abort info now dev xs'
              ⟨ainsert s.aranet4 dev (now, ann), s.devices⟩ v er ys
              (by simpa using hnone) herr
            simp [ih]
    · simp only [if_neg hk] at hnone ⊢
      by_cases hA : k = 0x004C
      · subst hA
        simp only [eq_self_iff_true, if_true] at hnone ⊢
        have ih := processMfrPairs_abort info now dev xs' s v er ys
          (by simpa using hnone) herr
        simp [ih]
      · simp only [if_neg hA] at hnone ⊢
        have ih := processMfrPairs_abort info now dev xs' s v er ys
          (by simpa using hnone) herr
        simp [ih]

theorem run_length (info : ℕ → Option DeviceInfo) (args : Args) :
    ∀ (polls : List Poll) (s : State),
      (run info args s polls).2.length = polls.length
  | [], _ => rfl
  | p :: rest, s => by
    cases p with
    | outputTick now => simp [run, run_length info args rest s]
    | event now ev => simp [run, run_length info args rest _]

/-- C1 — amended.  A decode failure on a key/payload pair propagates
out of `process_event` via `?`, so the remaining pairs of the same
event are not processed (neither dispatched nor logged); the failure is
otherwise local: (i) no other device's store entry or name-table entry
is ever touched by the event, (ii) processing stops exactly at the
failing pair, returning the state and observations accumulated from
the pairs before it together with the error, and (iii) the loop logs
the surfaced error and keeps consuming every subsequent ready item
(one `LoopOut` per poll, the loop never terminates). -/
theorem c1_decode_failure_locality (info : ℕ → Option DeviceInfo) (now : ℤ) :
    (∀ (s : State) (dev : ℕ) (pairs : List (ℕ × List ℕ)) (d : ℕ), d ≠ dev →
      alookup
          (process_event info now s (.device dev (.manufacturerData pairs))).1.aranet4 d =
        alookup s.aranet4 d ∧
      alookup
          (process_event info now s (.device dev (.manufacturerData pairs))).1.devices d =
        alookup s.devices d) ∧
    (∀ (s : State) (dev : ℕ) (xs : List (ℕ × List ℕ)) (v : List ℕ) (er : DecodeErr)
      (ys : List (ℕ × List ℕ)),
      (processMfrPairs info now dev s xs).2.2 = none →
      aranet4.try_from_ctx v = .error er →
      process_event info now s
          (.device dev (.manufacturerData (xs ++ (aranet4.MANUFACTURER_ID, v) :: ys))) =
        ((processMfrPairs info now dev s xs).1,
          (processMfrPairs info now dev s xs).2.1, some er)) ∧
    (∀ (args : Args) (s : State) (polls : List Poll),
      (run info args s polls).2.length = polls.length) :=
  ⟨fun s dev pairs d hd => processMfrPairs_other_dev info now dev pairs s d hd,
   fun s dev xs v er ys h1 h2 => processMfrPairs_abort info now dev xs s v er ys h1 h2,
   fun args s polls => run_length info args polls s⟩

/-- C1 — witness: an Apple pair followed by a truncated Aranet4 pair
and one more pair; processing yields the prefix's state and
observations plus the error, the trailing pair untouched. -/
theorem c1_decode_failure_locality_witness :
    process_event (fun _ => none) 0 ⟨[], []⟩
        (.device 7
          (.manufacturerData
            ([(0x004C, [1])] ++ (aranet4.MANUFACTURER_ID, ([] : List ℕ)) :: [(0x1234, [2])]))) =
      ((processMfrPairs (fun _ => none) 0 7 ⟨[], []⟩ [(0x004C, [1])]).1,
        (processMfrPairs (fun _ => none) 0 7 ⟨[], []⟩ [(0x004C, [1])]).2.1,
        some ⟨10, 0⟩) :=
  (c1_decode_failure_locality (fun _ => none) 0).2.1 ⟨[], []⟩ 7 [(0x004C, [1])] []
    ⟨10, 0⟩ [(0x1234, [2])] rfl rfl

/-- C1 — counterexample.  An event with a truncated Aranet4 pair first
and an unknown-key pair second: the decode failure aborts the event, so
the second pair is neither dispatched nor observed (the observation
list is empty rather than containing its trace entry) and the error is
surfaced to the loop — the claim that the remaining pairs of the same
event are still processed is false. -/
theorem c1_abort_skips_remaining_pairs_counterexample :
    process_event (fun _ => none) 0 ⟨[], []⟩
        (.device 7 (.manufacturerData [(aranet4.MANUFACTURER_ID, []), (0x9999, [1])])) =
      (⟨[], []⟩, [], some ⟨10, 0⟩) := rfl
